import Mathlib

/-!
# Verification of the Synapse→MAS migration engine

A shallow embedding of `crates/syn2mas/src/migration.rs`: the six migration
stages (users, threepids, external IDs, unrefreshable access tokens,
refreshable token pairs, devices) are modelled as pure recursive functions
over lists of source rows, threading the in-memory indices
(localpart → user UUID, admin set, `(user, device) → session` map) and an
explicit randomness counter exactly as the Rust code threads its `HashMap`s
and `RngCore`.

Conventions of the embedding:
* 128-bit identifiers (`Uuid`/`Ulid`) are `Nat` values built as
  `(ts % 2^48) * 2^80 + randomness % 2^80`, matching the ULID layout
  (48-bit millisecond timestamp in the high bits, 80 random bits below).
* Timestamps are `Nat` milliseconds since the Unix epoch.
* The RNG is a fixed stream `rng : Nat → Nat`; each mint consumes one draw,
  in exactly the order the Rust code calls the generator.
* The injected `Clock` is modelled by the fixed reading `clock_now`; the
  system wall clock read by `Ulid::with_source` (which does *not* consult
  the injected clock) is modelled by the separate reading `system_now`.
* IP parsing (`str::parse::<IpAddr>`) is modelled by an abstract partial
  function `parse_ip`; a `none` result is a parse failure.
* The database write buffers always succeed (database I/O errors are
  environment failures outside the embedding), so each stage returns its
  emitted rows in emission order, or the first `Error` it aborts with.
-/

/-- Strings are modelled as character lists so that every operation of the
embedding is kernel-computable. -/
abbrev Str := List Char

/-- Rust `str::strip_suffix`: remove `suffix` from the end of `s`, or fail. -/
def stripSuffix (s suffix : Str) : Option Str :=
  if suffix.length ≤ s.length && decide (s.drop (s.length - suffix.length) = suffix) then
    some (s.take (s.length - suffix.length))
  else
    none

/-- Ambient inputs of the migration: server name, injected clock reading,
system wall-clock reading (used by `Ulid::with_source` in the device stage),
the randomness stream, and the IP parser. -/
structure Env where
  server_name : Str
  clock_now : Nat
  system_now : Nat
  rng : Nat → Nat
  parse_ip : Str → Option Str

/-- Minting `Ulid::from_datetime_with_source(ts, rng)` at randomness position `k`:
48-bit millisecond timestamp in the high bits, 80 random bits below. -/
def ulidWith (env : Env) (ts k : Nat) : Nat :=
  (ts % 2 ^ 48) * 2 ^ 80 + env.rng k % 2 ^ 80

/-- Decoding `Ulid::from(id).datetime()`: recover the millisecond timestamp from the
high 48 bits of a 128-bit identifier. -/
def ulidDatetime (id : Nat) : Nat :=
  id / 2 ^ 80

/-- Modelled from the spec: `FullUserId::extract_localpart` lives in the
`synapse_reader` module, which is not part of the sources under study. Per
§4.2 it splits `@<local>:<server>`, failing when the `@` prefix is absent,
or the `:<server>` suffix (byte-exact on the server portion) is absent. -/
def extractLocalpart (server_name user : Str) : Option Str :=
  match user with
  | '@' :: rest => stripSuffix rest (':' :: server_name)
  | _ => none

/-- Source row of the `users` table (spec §3; fields as consumed by
`migration.rs`). -/
structure SynapseUser where
  name : Str
  creation_ts : Nat
  admin : Bool
  deactivated : Bool
  password_hash : Option Str
  deriving DecidableEq, Repr

/-- Source row of the `user_threepids` table. -/
structure SynapseThreepid where
  user_id : Str
  medium : Str
  address : Str
  added_at : Nat
  deriving DecidableEq, Repr

/-- Source row of the `user_external_ids` table. -/
structure SynapseExternalId where
  user_id : Str
  auth_provider : Str
  external_id : Str
  deriving DecidableEq, Repr

/-- Source row of the `devices` table. -/
structure SynapseDevice where
  user_id : Str
  device_id : Str
  display_name : Option Str
  last_seen : Option Nat
  ip : Option Str
  user_agent : Option Str
  deriving DecidableEq, Repr

/-- Source access token without a refresh-token peer (possibly deviceless). -/
structure SynapseAccessToken where
  user_id : Str
  device_id : Option Str
  token : Str
  valid_until_ms : Option Nat
  last_validated : Option Nat
  deriving DecidableEq, Repr

/-- Source (access token, refresh token) pair; `device_id` is required. -/
structure SynapseRefreshableTokenPair where
  user_id : Str
  device_id : Str
  access_token : Str
  refresh_token : Str
  valid_until_ms : Option Nat
  last_validated : Option Nat
  deriving DecidableEq, Repr

/-- Destination `users` row (`MasNewUser`). -/
structure MasNewUser where
  user_id : Nat
  username : Str
  created_at : Nat
  locked_at : Option Nat
  can_request_admin : Bool
  deriving DecidableEq, Repr

/-- Destination `user_passwords` row (`MasNewUserPassword`). -/
structure MasNewUserPassword where
  user_password_id : Nat
  user_id : Nat
  hashed_password : Str
  created_at : Nat
  deriving DecidableEq, Repr

/-- Destination email-threepid row (`MasNewEmailThreepid`). -/
structure MasNewEmailThreepid where
  user_id : Nat
  user_email_id : Nat
  email : Str
  created_at : Nat
  deriving DecidableEq, Repr

/-- Destination unsupported-threepid row (`MasNewUnsupportedThreepid`). -/
structure MasNewUnsupportedThreepid where
  user_id : Nat
  medium : Str
  address : Str
  created_at : Nat
  deriving DecidableEq, Repr

/-- Destination upstream-OAuth-link row (`MasNewUpstreamOauthLink`). -/
structure MasNewUpstreamOauthLink where
  link_id : Nat
  user_id : Nat
  upstream_provider_id : Nat
  subject : Str
  created_at : Nat
  deriving DecidableEq, Repr

/-- Destination compat-session row (`MasNewCompatSession`). -/
structure MasNewCompatSession where
  session_id : Nat
  user_id : Nat
  device_id : Option Str
  human_name : Option Str
  created_at : Nat
  is_synapse_admin : Bool
  last_active_at : Option Nat
  last_active_ip : Option Str
  user_agent : Option Str
  deriving DecidableEq, Repr

/-- Destination compat-access-token row (`MasNewCompatAccessToken`). -/
structure MasNewCompatAccessToken where
  token_id : Nat
  session_id : Nat
  access_token : Str
  created_at : Nat
  expires_at : Option Nat
  deriving DecidableEq, Repr

/-- Destination compat-refresh-token row (`MasNewCompatRefreshToken`). -/
structure MasNewCompatRefreshToken where
  refresh_token_id : Nat
  session_id : Nat
  access_token_id : Nat
  refresh_token : Str
  created_at : Nat
  deriving DecidableEq, Repr

/-- The error taxonomy of `migration.rs` (database I/O errors excluded: the
embedding's reader and writer are total). -/
inductive Error where
  | extractLocalpartFailed (user : Str)
  | missingUserFromDependentTable (table : Str) (user : Str)
  | missingAuthProviderMapping (synapse_id : Str) (user : Str)
  deriving DecidableEq, Repr

/-- Embedding of `transform_user`: extract the localpart, mint the user ID from
`creation_ts`, set `locked_at` iff deactivated, and mint an optional
password row from the same timestamp. Returns the advanced rng counter. -/
def transform_user (env : Env) (user : SynapseUser) (k : Nat) :
    Except Error (MasNewUser × Option MasNewUserPassword × Nat) :=
  match extractLocalpart env.server_name user.name with
  | none => .error (.extractLocalpartFailed user.name)
  | some username =>
    let new_user : MasNewUser :=
      { user_id := ulidWith env user.creation_ts k
        username := username
        created_at := user.creation_ts
        locked_at := if user.deactivated then some user.creation_ts else none
        can_request_admin := user.admin }
    match user.password_hash with
    | none => .ok (new_user, none, k + 1)
    | some password_hash =>
      .ok (new_user,
        some { user_password_id := ulidWith env user.creation_ts (k + 1)
               user_id := new_user.user_id
               hashed_password := password_hash
               created_at := new_user.created_at },
        k + 2)

/-- Embedding of `migrate_users`, with the localpart index and the admin set threaded as
accumulators (most recent insertion first, so `List.lookup` realises the
`HashMap`'s last-write-wins semantics). Returns the emitted user rows, the
password rows, the final index, the admin set and the rng counter. -/
def migrate_users (env : Env) (idx : List (Str × Nat)) (admins : List Nat)
    (k : Nat) :
    List SynapseUser →
    Except Error (List MasNewUser × List MasNewUserPassword ×
      List (Str × Nat) × List Nat × Nat)
  | [] => .ok ([], [], idx, admins, k)
  | u :: rest =>
    match transform_user env u k with
    | .error e => .error e
    | .ok (mas_user, mas_password_opt, k') =>
      let admins' := if u.admin then mas_user.user_id :: admins else admins
      let idx' := (mas_user.username, mas_user.user_id) :: idx
      match migrate_users env idx' admins' k' rest with
      | .error e => .error e
      | .ok (users, passwords, idxF, adminsF, kF) =>
        .ok (mas_user :: users, mas_password_opt.toList ++ passwords,
          idxF, adminsF, kF)

/-- Embedding of `migrate_threepids`: route `medium == "email"` to email rows (ID minted
from `added_at`), anything else verbatim to unsupported-threepid rows. -/
def migrate_threepids (env : Env) (idx : List (Str × Nat)) (k : Nat) :
    List SynapseThreepid →
    Except Error (List MasNewEmailThreepid × List MasNewUnsupportedThreepid × Nat)
  | [] => .ok ([], [], k)
  | t :: rest =>
    match extractLocalpart env.server_name t.user_id with
    | none => .error (.extractLocalpartFailed t.user_id)
    | some username =>
      match List.lookup username idx with
      | none => .error (.missingUserFromDependentTable ("user_threepids".data) t.user_id)
      | some user_id =>
        if t.medium == "email".data then
          match migrate_threepids env idx (k + 1) rest with
          | .error e => .error e
          | .ok (emails, unsupported, kF) =>
            .ok ({ user_id := user_id
                   user_email_id := ulidWith env t.added_at k
                   email := t.address
                   created_at := t.added_at } :: emails, unsupported, kF)
        else
          match migrate_threepids env idx k rest with
          | .error e => .error e
          | .ok (emails, unsupported, kF) =>
            .ok (emails,
              { user_id := user_id
                medium := t.medium
                address := t.address
                created_at := t.added_at } :: unsupported, kF)

/-- Embedding of `migrate_external_ids`: resolve the user through the localpart index,
then the provider through the supplied mapping; date the link from the
user ID's embedded timestamp. -/
def migrate_external_ids (env : Env) (idx : List (Str × Nat))
    (provider_id_mapping : List (Str × Nat)) (k : Nat) :
    List SynapseExternalId →
    Except Error (List MasNewUpstreamOauthLink × Nat)
  | [] => .ok ([], k)
  | e :: rest =>
    match extractLocalpart env.server_name e.user_id with
    | none => .error (.extractLocalpartFailed e.user_id)
    | some username =>
      match List.lookup username idx with
      | none => .error (.missingUserFromDependentTable ("user_external_ids".data) e.user_id)
      | some user_id =>
        match List.lookup e.auth_provider provider_id_mapping with
        | none => .error (.missingAuthProviderMapping e.auth_provider e.user_id)
        | some upstream_provider_id =>
          let user_created_ts := ulidDatetime user_id
          match migrate_external_ids env idx provider_id_mapping (k + 1) rest with
          | .error e' => .error e'
          | .ok (links, kF) =>
            .ok ({ link_id := ulidWith env user_created_ts k
                   user_id := user_id
                   upstream_provider_id := upstream_provider_id
                   subject := e.external_id
                   created_at := user_created_ts } :: links, kF)

/-- Embedding of `migrate_unrefreshable_access_tokens` (pass 1 of the coalescer):
`created_at ← last_validated ?? clock.now()`; a device-ful token enters the
`(user, device) → session` map (minting on a miss) without emitting a
session row; a deviceless token immediately emits a deviceless session.
Returns (access tokens, deviceless sessions, final map, rng counter). -/
def migrate_unrefreshable_access_tokens (env : Env) (idx : List (Str × Nat))
    (devices : List ((Nat × Str) × Nat)) (k : Nat) :
    List SynapseAccessToken →
    Except Error (List MasNewCompatAccessToken × List MasNewCompatSession ×
      List ((Nat × Str) × Nat) × Nat)
  | [] => .ok ([], [], devices, k)
  | t :: rest =>
    match extractLocalpart env.server_name t.user_id with
    | none => .error (.extractLocalpartFailed t.user_id)
    | some username =>
      match List.lookup username idx with
      | none => .error (.missingUserFromDependentTable ("access_tokens".data) t.user_id)
      | some user_id =>
        let created_at := t.last_validated.getD env.clock_now
        match t.device_id with
        | some device_id =>
          -- Use the existing session ID if this is the second token for a device
          let step : Nat × List ((Nat × Str) × Nat) × Nat :=
            match List.lookup (user_id, device_id) devices with
            | some session_id => (session_id, devices, k)
            | none =>
              (ulidWith env created_at k,
               ((user_id, device_id), ulidWith env created_at k) :: devices, k + 1)
          let session_id := step.1
          let devices' := step.2.1
          let k1 := step.2.2
          let token_id := ulidWith env created_at k1
          match migrate_unrefreshable_access_tokens env idx devices' (k1 + 1) rest with
          | .error e => .error e
          | .ok (toks, deviceless, devicesF, kF) =>
            .ok ({ token_id := token_id
                   session_id := session_id
                   access_token := t.token
                   created_at := created_at
                   expires_at := t.valid_until_ms } :: toks,
              deviceless, devicesF, kF)
        | none =>
          -- Deviceless token: emit a deviceless compat session immediately
          let deviceless_session_id := ulidWith env created_at k
          let token_id := ulidWith env created_at (k + 1)
          match migrate_unrefreshable_access_tokens env idx devices (k + 2) rest with
          | .error e => .error e
          | .ok (toks, deviceless, devicesF, kF) =>
            .ok ({ token_id := token_id
                   session_id := deviceless_session_id
                   access_token := t.token
                   created_at := created_at
                   expires_at := t.valid_until_ms } :: toks,
              { session_id := deviceless_session_id
                user_id := user_id
                device_id := none
                human_name := none
                created_at := created_at
                is_synapse_admin := false
                last_active_at := none
                last_active_ip := none
                user_agent := none } :: deviceless,
              devicesF, kF)

/-- Embedding of `migrate_refreshable_token_pairs` (pass 2): like pass 1 but the device
is required; emits a paired access token and refresh token. Returns
(access tokens, refresh tokens, final map, rng counter). -/
def migrate_refreshable_token_pairs (env : Env) (idx : List (Str × Nat))
    (devices : List ((Nat × Str) × Nat)) (k : Nat) :
    List SynapseRefreshableTokenPair →
    Except Error (List MasNewCompatAccessToken × List MasNewCompatRefreshToken ×
      List ((Nat × Str) × Nat) × Nat)
  | [] => .ok ([], [], devices, k)
  | t :: rest =>
    match extractLocalpart env.server_name t.user_id with
    | none => .error (.extractLocalpartFailed t.user_id)
    | some username =>
      match List.lookup username idx with
      | none => .error (.missingUserFromDependentTable ("refresh_tokens".data) t.user_id)
      | some user_id =>
        let created_at := t.last_validated.getD env.clock_now
        -- Use the existing session ID if this is the second token for a device
        let step : Nat × List ((Nat × Str) × Nat) × Nat :=
          match List.lookup (user_id, t.device_id) devices with
          | some session_id => (session_id, devices, k)
          | none =>
            (ulidWith env created_at k,
             ((user_id, t.device_id), ulidWith env created_at k) :: devices, k + 1)
        let session_id := step.1
        let devices' := step.2.1
        let k1 := step.2.2
        let access_token_id := ulidWith env created_at k1
        let refresh_token_id := ulidWith env created_at (k1 + 1)
        match migrate_refreshable_token_pairs env idx devices' (k1 + 2) rest with
        | .error e => .error e
        | .ok (toks, refreshes, devicesF, kF) =>
          .ok ({ token_id := access_token_id
                 session_id := session_id
                 access_token := t.access_token
                 created_at := created_at
                 expires_at := t.valid_until_ms } :: toks,
            { refresh_token_id := refresh_token_id
              session_id := session_id
              access_token_id := access_token_id
              refresh_token := t.refresh_token
              created_at := created_at } :: refreshes,
            devicesF, kF)

/-- Embedding of `migrate_devices`: for each device, take the session ID from the shared
map (pass 1/2 put it there) or — on a miss — mint one from the *system*
wall clock (`Ulid::with_source`, which does not consult the injected
clock); reconstruct `created_at` from the session ID's timestamp bits;
parse the IP leniently; emit the session row with the Synapse-admin flag
from the admin set. Returns (sessions, final map, rng counter). -/
def migrate_devices (env : Env) (idx : List (Str × Nat)) (admins : List Nat)
    (devices : List ((Nat × Str) × Nat)) (k : Nat) :
    List SynapseDevice →
    Except Error (List MasNewCompatSession × List ((Nat × Str) × Nat) × Nat)
  | [] => .ok ([], devices, k)
  | d :: rest =>
    match extractLocalpart env.server_name d.user_id with
    | none => .error (.extractLocalpartFailed d.user_id)
    | some username =>
      match List.lookup username idx with
      | none => .error (.missingUserFromDependentTable ("devices".data) d.user_id)
      | some user_id =>
        let step : Nat × List ((Nat × Str) × Nat) × Nat :=
          match List.lookup (user_id, d.device_id) devices with
          | some session_id => (session_id, devices, k)
          | none =>
            -- No creation time for this device (it has no access token):
            -- `Ulid::with_source` stamps it with the system wall clock.
            (ulidWith env env.system_now k,
             ((user_id, d.device_id), ulidWith env env.system_now k) :: devices,
             k + 1)
        let session_id := step.1
        let devices' := step.2.1
        let k1 := step.2.2
        let created_at := ulidDatetime session_id
        let last_active_ip := d.ip.bind env.parse_ip
        match migrate_devices env idx admins devices' k1 rest with
        | .error e => .error e
        | .ok (sessions, devicesF, kF) =>
          .ok ({ session_id := session_id
                 user_id := user_id
                 device_id := some d.device_id
                 human_name := d.display_name
                 created_at := created_at
                 is_synapse_admin := admins.contains user_id
                 last_active_at := d.last_seen
                 last_active_ip := last_active_ip
                 user_agent := d.user_agent } :: sessions, devicesF, kF)

/-- The whole source database consumed by the migration. -/
structure SynapseDb where
  users : List SynapseUser
  threepids : List SynapseThreepid
  external_ids : List SynapseExternalId
  devices : List SynapseDevice
  unrefreshable_access_tokens : List SynapseAccessToken
  refreshable_token_pairs : List SynapseRefreshableTokenPair
  deriving Repr

/-- Everything the migration writes, per destination table. The
`compat_sessions` table receives the deviceless sessions of pass 1 followed
by the device-stage sessions; `compat_access_tokens` receives pass 1's then
pass 2's tokens. -/
structure MasDb where
  users : List MasNewUser
  passwords : List MasNewUserPassword
  email_threepids : List MasNewEmailThreepid
  unsupported_threepids : List MasNewUnsupportedThreepid
  upstream_oauth_links : List MasNewUpstreamOauthLink
  compat_sessions : List MasNewCompatSession
  compat_access_tokens : List MasNewCompatAccessToken
  compat_refresh_tokens : List MasNewCompatRefreshToken
  deriving Repr

/-- Embedding of `migrate`: the orchestrator, sequencing the stages
users → threepids → external IDs → unrefreshable tokens → refreshable
pairs → devices, threading the indices and the rng counter. -/
def migrate (env : Env) (provider_id_mapping : List (Str × Nat))
    (db : SynapseDb) : Except Error MasDb :=
  match migrate_users env [] [] 0 db.users with
  | .error e => .error e
  | .ok (users, passwords, idx, admins, k1) =>
    match migrate_threepids env idx k1 db.threepids with
    | .error e => .error e
    | .ok (emails, unsupported, k2) =>
      match migrate_external_ids env idx provider_id_mapping k2 db.external_ids with
      | .error e => .error e
      | .ok (links, k3) =>
        match migrate_unrefreshable_access_tokens env idx [] k3
            db.unrefreshable_access_tokens with
        | .error e => .error e
        | .ok (tokens1, deviceless_sessions, devmap1, k4) =>
          match migrate_refreshable_token_pairs env idx devmap1 k4
              db.refreshable_token_pairs with
          | .error e => .error e
          | .ok (tokens2, refresh_tokens, devmap2, k5) =>
            match migrate_devices env idx admins devmap2 k5 db.devices with
            | .error e => .error e
            | .ok (device_sessions, _devmapF, _k6) =>
              .ok { users := users
                    passwords := passwords
                    email_threepids := emails
                    unsupported_threepids := unsupported
                    upstream_oauth_links := links
                    compat_sessions := deviceless_sessions ++ device_sessions
                    compat_access_tokens := tokens1 ++ tokens2
                    compat_refresh_tokens := refresh_tokens }

/-- The `(user uuid, device id)` pair a device row resolves to through the
localpart index, when it resolves at all. -/
def deviceResolvedPair (env : Env) (idx : List (Str × Nat))
    (d : SynapseDevice) : Option (Nat × Str) :=
  match extractLocalpart env.server_name d.user_id with
  | none => none
  | some loc => (List.lookup loc idx).map (fun uid => (uid, d.device_id))

def SynapseDb.tsBounded (db : SynapseDb) : Prop :=
  (∀ u ∈ db.users, u.creation_ts < 2 ^ 48) ∧
  (∀ t ∈ db.threepids, t.added_at < 2 ^ 48) ∧
  (∀ t ∈ db.unrefreshable_access_tokens, ∀ ts ∈ t.last_validated, ts < 2 ^ 48) ∧
  (∀ t ∈ db.refreshable_token_pairs, ∀ ts ∈ t.last_validated, ts < 2 ^ 48)

/-! ## Scenario constants

A fixed environment and a concrete source database, used by the closed
witnesses and counterexamples of the claim theorems below. -/

/-- A fixed environment for concrete scenarios: server `example.org`, the
injected clock frozen at 1000 ms, the system wall clock at 2000 ms, an
all-zeros randomness stream, and an IP parser that rejects everything. -/
def envW : Env :=
  { server_name := "example.org".data
    clock_now := 1000
    system_now := 2000
    rng := fun _ => 0
    parse_ip := fun _ => none }

/-- Concrete source user `@alice:example.org`, a Synapse admin with a
password hash, created at t=5 ms. -/
def aliceW : SynapseUser :=
  { name := "@alice:example.org".data
    creation_ts := 5
    admin := true
    deactivated := false
    password_hash := some ("hash".data) }

/-- The localpart index as the user stage builds it from `[aliceW]`. -/
def idxW : List (Str × Nat) := [("alice".data, ulidWith envW 5 0)]

/-- The admin set as the user stage builds it from `[aliceW]`. -/
def adminsW : List Nat := [ulidWith envW 5 0]

/-- Concrete device row `D1` for alice, with no IP. -/
def deviceW : SynapseDevice :=
  { user_id := "@alice:example.org".data
    device_id := "D1".data
    display_name := none
    last_seen := none
    ip := none
    user_agent := none }

/-- Concrete access token bound to device `D1`, last validated at t=500 ms. -/
def tokenW : SynapseAccessToken :=
  { user_id := "@alice:example.org".data
    device_id := some ("D1".data)
    token := "tok1".data
    valid_until_ms := none
    last_validated := some 500 }

/-- Concrete deviceless access token with no `last_validated`. -/
def tokenNoDevW : SynapseAccessToken :=
  { user_id := "@alice:example.org".data
    device_id := none
    token := "tok2".data
    valid_until_ms := some 9999
    last_validated := none }

/-- Concrete refreshable token pair bound to device `D2`. -/
def pairW : SynapseRefreshableTokenPair :=
  { user_id := "@alice:example.org".data
    device_id := "D2".data
    access_token := "at".data
    refresh_token := "rt".data
    valid_until_ms := none
    last_validated := some 600 }

/-- A deactivated variant of alice, used to witness C7. -/
def aliceDeacW : SynapseUser :=
  { name := "@alice:example.org".data
    creation_ts := 7
    admin := false
    deactivated := true
    password_hash := none }

/-- The result of `transform_user` on the deactivated user. -/
def truW : MasNewUser × Option MasNewUserPassword × Nat :=
  match transform_user envW aliceDeacW 0 with
  | .ok r => r
  | .error _ => (⟨0, [], 0, none, false⟩, none, 0)

/-- An email threepid and an unsupported (`msisdn`) threepid for alice. -/
def threepidsW : List SynapseThreepid :=
  [{ user_id := "@alice:example.org".data, medium := "email".data,
     address := "alice@x".data, added_at := 9 },
   { user_id := "@alice:example.org".data, medium := "msisdn".data,
     address := "+441234".data, added_at := 10 }]

/-- The threepid stage's output on `threepidsW`. -/
def threepidsResW :
    List MasNewEmailThreepid × List MasNewUnsupportedThreepid × Nat :=
  match migrate_threepids envW idxW 0 threepidsW with
  | .ok r => r
  | .error _ => ([], [], 0)

/-- Pass 1's output on `[tokenW, tokenNoDevW]`. -/
def p1ResW : List MasNewCompatAccessToken × List MasNewCompatSession ×
    List ((Nat × Str) × Nat) × Nat :=
  match migrate_unrefreshable_access_tokens envW idxW [] 0 [tokenW, tokenNoDevW] with
  | .ok r => r
  | .error _ => ([], [], [], 0)

/-- Pass 2's output on `[pairW]`. -/
def p2ResW : List MasNewCompatAccessToken × List MasNewCompatRefreshToken ×
    List ((Nat × Str) × Nat) × Nat :=
  match migrate_refreshable_token_pairs envW idxW [] 0 [pairW] with
  | .ok r => r
  | .error _ => ([], [], [], 0)

/-- A source external-ID row that the external-ID stage passes over without
error: its user resolves through the localpart index and its provider is
mapped. -/
def extRowOk (env : Env) (idx provider_id_mapping : List (Str × Nat))
    (e : SynapseExternalId) : Bool :=
  match extractLocalpart env.server_name e.user_id with
  | none => false
  | some loc =>
    (List.lookup loc idx).isSome &&
      (List.lookup e.auth_provider provider_id_mapping).isSome

/-- An external-ID row for alice whose provider is mapped. -/
def extGoodW : SynapseExternalId :=
  { user_id := "@alice:example.org".data
    auth_provider := "oidc".data
    external_id := "subject1".data }

/-- An external-ID row for alice whose provider has no mapping. -/
def extBadW : SynapseExternalId :=
  { user_id := "@alice:example.org".data
    auth_provider := "saml".data
    external_id := "subject2".data }

/-- An external-ID row for an unknown user and an unmapped provider. -/
def extUnknownUserW : SynapseExternalId :=
  { user_id := "@bob:example.org".data
    auth_provider := "saml".data
    external_id := "subject3".data }

/-- The provider mapping used in concrete scenarios: `oidc` is mapped. -/
def mapW : List (Str × Nat) := [("oidc".data, 42)]

/-- A device row for alice with an unparseable last-seen IP. -/
def deviceBadIpW : SynapseDevice :=
  { user_id := "@alice:example.org".data
    device_id := "D3".data
    display_name := some ("phone".data)
    last_seen := some 800
    ip := some ("not-an-ip".data)
    user_agent := some ("UA".data) }

/-- The full concrete scenario database: alice (admin, with password), two
threepids, one mapped external ID, device `D1`, an unrefreshable token on
`D1`, a deviceless token, and a refreshable pair on `D2` (which has no
device row). -/
def dbW : SynapseDb :=
  { users := [aliceW]
    threepids := threepidsW
    external_ids := [extGoodW]
    devices := [deviceW]
    unrefreshable_access_tokens := [tokenW, tokenNoDevW]
    refreshable_token_pairs := [pairW] }

/-- The migration's output on the full scenario database. -/
def outW : MasDb :=
  match migrate envW mapW dbW with
  | .ok o => o
  | .error _ => ⟨[], [], [], [], [], [], [], []⟩

/-- The user stage's output on the scenario users. -/
def usersResW : List MasNewUser × List MasNewUserPassword ×
    List (Str × Nat) × List Nat × Nat :=
  match migrate_users envW [] [] 0 dbW.users with
  | .ok r => r
  | .error _ => ([], [], [], [], 0)

/-- C1 (as stated, refuted): a `(user, device)` pair that appears only in a
token — here `D1` appears in an access token but the device table is empty
— yields *no* compat session at all, not exactly one: only the device stage
emits sessions with a device ID, and it never sees the pair. -/
def db1cW : SynapseDb :=
  { users := [aliceW]
    threepids := []
    external_ids := []
    devices := []
    unrefreshable_access_tokens := [tokenW]
    refreshable_token_pairs := [] }

/-- Database refuting C2 as stated: the admin alice holds one deviceless
access token and nothing else. -/
def db2cW : SynapseDb :=
  { users := [aliceW]
    threepids := []
    external_ids := []
    devices := []
    unrefreshable_access_tokens := [tokenNoDevW]
    refreshable_token_pairs := [] }

/-- The migration's output on `db2cW`. -/
def out2cW : MasDb :=
  match migrate envW [] db2cW with
  | .ok o => o
  | .error _ => ⟨[], [], [], [], [], [], [], []⟩

/-- The deviceless session emitted for the admin's deviceless token. -/
def sess2cW : MasNewCompatSession :=
  match out2cW.compat_sessions with
  | s :: _ => s
  | [] => ⟨0, 0, none, none, 0, true, none, none, none⟩

/-- The device-`D1` session in the full scenario output (the deviceless
session precedes it in `compat_sessions`). -/
def sessAdminW : MasNewCompatSession :=
  match outW.compat_sessions with
  | _ :: s :: _ => s
  | _ => ⟨0, 0, none, none, 0, false, none, none, none⟩

/-- Database for C3: a device with no access tokens at all. -/
def db3cW : SynapseDb :=
  { users := [aliceW]
    threepids := []
    external_ids := []
    devices := [deviceW]
    unrefreshable_access_tokens := []
    refreshable_token_pairs := [] }

/-! ## Identifier arithmetic and general list lemmas -/

/-- The timestamp recovered from a minted ULID is the minting timestamp,
reduced to its low 48 bits. -/
theorem ulidDatetime_ulidWith (env : Env) (ts k : Nat) :
    ulidDatetime (ulidWith env ts k) = ts % 2 ^ 48 := by
  unfold ulidDatetime ulidWith
  rw [Nat.add_comm, Nat.mul_comm,
    Nat.add_mul_div_left _ _ (by norm_num : (0:Nat) < 2 ^ 80),
    Nat.div_eq_of_lt (Nat.mod_lt _ (by norm_num)), Nat.zero_add]

/-- Minted identifiers are 128-bit values. -/
theorem ulidWith_lt (env : Env) (ts k : Nat) : ulidWith env ts k < 2 ^ 128 := by
  unfold ulidWith
  have h1 : ts % 2 ^ 48 < 2 ^ 48 := Nat.mod_lt _ (by norm_num)
  have h2 : env.rng k % 2 ^ 80 < 2 ^ 80 := Nat.mod_lt _ (by norm_num)
  nlinarith [h1, h2]

/-- The timestamp embedded in a 128-bit identifier fits in 48 bits. -/
theorem ulidDatetime_lt (id : Nat) (h : id < 2 ^ 128) : ulidDatetime id < 2 ^ 48 := by
  unfold ulidDatetime
  omega

/-- Transport a `countP` along a `Forall₂` relation. -/
theorem countP_eq_of_forall2 {α β : Type} {R : α → β → Prop} {l1 : List α}
    {l2 : List β} (h : List.Forall₂ R l1 l2) (p : β → Bool) (q : α → Bool)
    (hpq : ∀ a b, R a b → p b = q a) : l2.countP p = l1.countP q := by
  induction h with
  | nil => rfl
  | cons hr hrest ih =>
    simp only [List.countP_cons, ih, hpq _ _ hr]

/-- A list in which no two elements may both satisfy `q`, but which contains
an element satisfying `q`, has `countP q` exactly one. -/
theorem countP_eq_one_of_pairwise {α : Type} (q : α → Bool) (l : List α)
    (hpw : l.Pairwise (fun a b => ¬(q a = true ∧ q b = true)))
    (a : α) (ha : a ∈ l) (hqa : q a = true) : l.countP q = 1 := by
  induction l with
  | nil => cases ha
  | cons b tl ih =>
    rcases List.pairwise_cons.mp hpw with ⟨hb, htl⟩
    rcases List.mem_cons.mp ha with rfl | hmem
    · rw [List.countP_cons_of_pos _ _ hqa]
      have h0 : tl.countP q = 0 := List.countP_eq_zero.mpr
        (fun x hx hqx => hb x hx ⟨hqa, hqx⟩)
      rw [h0]
    · have hqb : ¬(q b = true) := fun hqb => hb a hmem ⟨hqb, hqa⟩
      rw [List.countP_cons_of_neg _ _ hqb]
      exact ih htl hmem

/-- Every element of the right list of a `Forall₂` is related to some
element of the left list. -/
theorem forall2_mem_right {α β : Type} {R : α → β → Prop} {l1 : List α}
    {l2 : List β} (h : List.Forall₂ R l1 l2) (b : β) (hb : b ∈ l2) :
    ∃ a ∈ l1, R a b := by
  induction h with
  | nil => cases hb
  | cons hr hrest ih =>
    rcases List.mem_cons.mp hb with rfl | hm
    · exact ⟨_, by simp, hr⟩
    · obtain ⟨a, ha, hr2⟩ := ih hm
      exact ⟨a, List.mem_cons_of_mem _ ha, hr2⟩

/-- A `Forall₂` relates the elements at each common position. -/
theorem forall2_get {α β : Type} {R : α → β → Prop} {l1 : List α} {l2 : List β}
    (h : List.Forall₂ R l1 l2) (i : Nat) (h1 : i < l1.length) (h2 : i < l2.length) :
    R (l1.get ⟨i, h1⟩) (l2.get ⟨i, h2⟩) := by
  induction h generalizing i with
  | nil => cases h1
  | cons hr hrest ih =>
    cases i with
    | zero => exact hr
    | succ n => exact ih n (Nat.lt_of_succ_lt_succ h1) (Nat.lt_of_succ_lt_succ h2)

/-- A value found by `List.lookup` is one of the stored values. -/
theorem lookup_val_mem {α β : Type} [BEq α] (a : α) (l : List (α × β)) (b : β)
    (h : List.lookup a l = some b) : b ∈ l.map Prod.snd := by
  induction l with
  | nil => cases h
  | cons p tl ih =>
    rw [List.lookup] at h
    split at h
    · cases h
      exact List.mem_cons_self _ _
    · exact List.mem_cons_of_mem _ (ih h)

/-! ## Stage lemmas -/

/-- Every compat session emitted by the unrefreshable-token pass is
deviceless. -/
theorem pass1_sessions_deviceless (env : Env) (idx : List (Str × Nat))
    (dev : List ((Nat × Str) × Nat)) (k : Nat) (l : List SynapseAccessToken)
    (toks : List MasNewCompatAccessToken) (sess : List MasNewCompatSession)
    (devF : List ((Nat × Str) × Nat)) (kF : Nat)
    (h : migrate_unrefreshable_access_tokens env idx dev k l =
      .ok (toks, sess, devF, kF)) :
    ∀ s ∈ sess, s.device_id = none := by
  induction l generalizing dev k toks sess devF kF with
  | nil =>
    simp only [migrate_unrefreshable_access_tokens] at h
    cases h
    intro s hs; cases hs
  | cons t rest ih =>
    simp only [migrate_unrefreshable_access_tokens] at h
    split at h
    · cases h
    · split at h
      · cases h
      · split at h
        · split at h
          · cases h
          · rename_i hrec
            cases h
            exact ih _ _ _ _ _ _ hrec
        · split at h
          · cases h
          · rename_i hrec
            cases h
            intro s hs
            rcases List.mem_cons.mp hs with rfl | hmem
            · rfl
            · exact ih _ _ _ _ _ _ hrec s hmem

/-- Each session emitted by the device stage corresponds positionally to its
source device row: its `(user_id, device_id)` is the row's resolved pair,
its stored device is the row's device, and its Synapse-admin flag is the
admin set's verdict on its user. -/
theorem devices_sessions_forall2 (env : Env) (idx : List (Str × Nat))
    (admins : List Nat) (devices : List ((Nat × Str) × Nat)) (k : Nat)
    (l : List SynapseDevice) (sessions : List MasNewCompatSession)
    (devicesF : List ((Nat × Str) × Nat)) (kF : Nat)
    (h : migrate_devices env idx admins devices k l = .ok (sessions, devicesF, kF)) :
    List.Forall₂ (fun (d : SynapseDevice) (s : MasNewCompatSession) =>
      deviceResolvedPair env idx d = some (s.user_id, d.device_id) ∧
      s.device_id = some d.device_id ∧
      s.is_synapse_admin = admins.contains s.user_id) l sessions := by
  induction l generalizing devices k sessions devicesF kF with
  | nil =>
    simp only [migrate_devices] at h
    cases h
    exact List.Forall₂.nil
  | cons d rest ih =>
    simp only [migrate_devices] at h
    split at h
    · cases h
    · rename_i username hl
      split at h
      · cases h
      · rename_i user_id hu
        split at h
        · cases h
        · rename_i sess' devs' k' hrec
          cases h
          refine List.Forall₂.cons ⟨?_, rfl, rfl⟩ (ih _ _ _ _ _ hrec)
          simp [deviceResolvedPair, hl, hu]

/-- The user stage only grows the admin set, and each source user flagged
`admin` gets their minted UUID into the final admin set. -/
theorem users_admin_forall2 (env : Env) (idx : List (Str × Nat))
    (admins : List Nat) (k : Nat) (l : List SynapseUser) (us : List MasNewUser)
    (ps : List MasNewUserPassword) (idxF : List (Str × Nat))
    (adminsF : List Nat) (kF : Nat)
    (h : migrate_users env idx admins k l = .ok (us, ps, idxF, adminsF, kF)) :
    (∀ a ∈ admins, a ∈ adminsF) ∧
    List.Forall₂ (fun (su : SynapseUser) (mu : MasNewUser) =>
      su.admin = true → mu.user_id ∈ adminsF) l us := by
  induction l generalizing idx admins k us ps with
  | nil =>
    simp only [migrate_users] at h
    cases h
    exact ⟨fun a ha => ha, List.Forall₂.nil⟩
  | cons u rest ih =>
    simp only [migrate_users] at h
    split at h
    · cases h
    · rename_i mas_user pw k' htr
      split at h
      · cases h
      · rename_i users' ps' idxF' adminsF' kF' hrec
        cases h
        obtain ⟨hsub, hf⟩ := ih _ _ _ _ _ hrec
        refine ⟨fun a ha => hsub a ?_, List.Forall₂.cons (fun hadm => hsub _ ?_) hf⟩
        · split
          · exact List.mem_cons_of_mem _ ha
          · exact ha
        · rw [if_pos hadm]
          exact List.mem_cons_self _ _

/-- User-stage identifiers embed their row's creation timestamp, and all
stored index values are 128-bit. -/
theorem users_c4 (env : Env) (idx : List (Str × Nat)) (admins : List Nat)
    (k : Nat) (l : List SynapseUser) (us : List MasNewUser)
    (ps : List MasNewUserPassword) (idxF : List (Str × Nat))
    (adminsF : List Nat) (kF : Nat)
    (h : migrate_users env idx admins k l = .ok (us, ps, idxF, adminsF, kF))
    (hb : ∀ u ∈ l, u.creation_ts < 2 ^ 48)
    (hidx : ∀ pr ∈ idx, pr.2 < 2 ^ 128) :
    (∀ mu ∈ us, ulidDatetime mu.user_id = mu.created_at) ∧
    (∀ p ∈ ps, ulidDatetime p.user_password_id = p.created_at) ∧
    (∀ pr ∈ idxF, pr.2 < 2 ^ 128) := by
  induction l generalizing idx admins k us ps with
  | nil =>
    simp only [migrate_users] at h
    cases h
    exact ⟨fun _ h => absurd h (List.not_mem_nil _),
      fun _ h => absurd h (List.not_mem_nil _), hidx⟩
  | cons u rest ih =>
    have hbu : u.creation_ts < 2 ^ 48 := hb u (List.mem_cons_self _ _)
    simp only [migrate_users] at h
    split at h
    · cases h
    · rename_i mas_user pw k' htr
      split at h
      · cases h
      · rename_i users' ps' idxF' adminsF' kF' hrec
        cases h
        simp only [transform_user] at htr
        split at htr
        · cases htr
        · rename_i username hl
          split at htr
          · cases htr
            obtain ⟨ihu, ihp, ihi⟩ := ih _ _ _ _ _ hrec
              (fun v hv => hb v (List.mem_cons_of_mem _ hv))
              (fun pr hpr => by
                rcases List.mem_cons.mp hpr with rfl | hm
                · exact ulidWith_lt env _ _
                · exact hidx pr hm)
            refine ⟨?_, ?_, ihi⟩
            · intro mu hmu
              rcases List.mem_cons.mp hmu with rfl | hm
              · rw [ulidDatetime_ulidWith]
                exact Nat.mod_eq_of_lt hbu
              · exact ihu mu hm
            · intro p hp
              simpa using ihp p hp
          · rename_i password_hash hph
            cases htr
            obtain ⟨ihu, ihp, ihi⟩ := ih _ _ _ _ _ hrec
              (fun v hv => hb v (List.mem_cons_of_mem _ hv))
              (fun pr hpr => by
                rcases List.mem_cons.mp hpr with rfl | hm
                · exact ulidWith_lt env _ _
                · exact hidx pr hm)
            refine ⟨?_, ?_, ihi⟩
            · intro mu hmu
              rcases List.mem_cons.mp hmu with rfl | hm
              · rw [ulidDatetime_ulidWith]
                exact Nat.mod_eq_of_lt hbu
              · exact ihu mu hm
            · intro p hp
              rcases List.mem_cons.mp (by simpa using hp) with rfl | hm
              · rw [ulidDatetime_ulidWith]
                exact Nat.mod_eq_of_lt hbu
              · exact ihp p hm

theorem threepids_c4 (env : Env) (idx : List (Str × Nat)) (k : Nat)
    (l : List SynapseThreepid) (emails : List MasNewEmailThreepid)
    (unsupported : List MasNewUnsupportedThreepid) (kF : Nat)
    (h : migrate_threepids env idx k l = .ok (emails, unsupported, kF))
    (hb : ∀ t ∈ l, t.added_at < 2 ^ 48) :
    ∀ e ∈ emails, ulidDatetime e.user_email_id = e.created_at := by
  induction l generalizing k emails unsupported kF with
  | nil =>
    simp only [migrate_threepids] at h
    cases h
    exact fun _ h => absurd h (List.not_mem_nil _)
  | cons t rest ih =>
    simp only [migrate_threepids] at h
    split at h
    · cases h
    · split at h
      · cases h
      · split at h
        · split at h
          · cases h
          · rename_i hrec
            cases h
            intro e he
            rcases List.mem_cons.mp he with rfl | hm
            · rw [ulidDatetime_ulidWith]
              exact Nat.mod_eq_of_lt (hb t (List.mem_cons_self _ _))
            · exact ih _ _ _ _ hrec
                (fun v hv => hb v (List.mem_cons_of_mem _ hv)) e hm
        · split at h
          · cases h
          · rename_i hrec
            cases h
            exact ih _ _ _ _ hrec
              (fun v hv => hb v (List.mem_cons_of_mem _ hv))

theorem external_c4 (env : Env) (idx : List (Str × Nat))
    (mapping : List (Str × Nat)) (k : Nat) (l : List SynapseExternalId)
    (links : List MasNewUpstreamOauthLink) (kF : Nat)
    (h : migrate_external_ids env idx mapping k l = .ok (links, kF))
    (hidx : ∀ pr ∈ idx, pr.2 < 2 ^ 128) :
    ∀ li ∈ links, ulidDatetime li.link_id = li.created_at := by
  induction l generalizing k links kF with
  | nil =>
    simp only [migrate_external_ids] at h
    cases h
    exact fun _ h => absurd h (List.not_mem_nil _)
  | cons e rest ih =>
    simp only [migrate_external_ids] at h
    split at h
    · cases h
    · rename_i username hl
      split at h
      · cases h
      · rename_i user_id hu
        split at h
        · cases h
        · rename_i upstream hup
          split at h
          · cases h
          · rename_i hrec
            cases h
            intro li hli
            rcases List.mem_cons.mp hli with rfl | hm
            · rw [ulidDatetime_ulidWith]
              refine Nat.mod_eq_of_lt (ulidDatetime_lt _ ?_)
              have := lookup_val_mem _ _ _ hu
              obtain ⟨pr, hpr, hpr2⟩ := List.mem_map.mp this
              exact hpr2 ▸ hidx pr hpr
            · exact ih _ _ _ hrec li hm

theorem pass1_c4 (env : Env) (idx : List (Str × Nat))
    (dev : List ((Nat × Str) × Nat)) (k : Nat) (l : List SynapseAccessToken)
    (toks : List MasNewCompatAccessToken) (sess : List MasNewCompatSession)
    (devF : List ((Nat × Str) × Nat)) (kF : Nat)
    (h : migrate_unrefreshable_access_tokens env idx dev k l =
      .ok (toks, sess, devF, kF))
    (hb : ∀ t ∈ l, ∀ ts ∈ t.last_validated, ts < 2 ^ 48)
    (hc : env.clock_now < 2 ^ 48) :
    (∀ tok ∈ toks, ulidDatetime tok.token_id = tok.created_at) ∧
    (∀ s ∈ sess, ulidDatetime s.session_id = s.created_at) := by
  induction l generalizing dev k toks sess devF kF with
  | nil =>
    simp only [migrate_unrefreshable_access_tokens] at h
    cases h
    exact ⟨fun _ h => absurd h (List.not_mem_nil _),
      fun _ h => absurd h (List.not_mem_nil _)⟩
  | cons t rest ih =>
    have hct : t.last_validated.getD env.clock_now < 2 ^ 48 := by
      cases hlv : t.last_validated with
      | none => simpa using hc
      | some ts =>
        simpa using hb t (List.mem_cons_self _ _) ts (by simp [hlv])
    simp only [migrate_unrefreshable_access_tokens] at h
    split at h
    · cases h
    · split at h
      · cases h
      · split at h
        · split at h
          · cases h
          · rename_i hrec
            cases h
            obtain ⟨iht, ihs⟩ := ih _ _ _ _ _ _ hrec
              (fun v hv => hb v (List.mem_cons_of_mem _ hv))
            refine ⟨?_, ihs⟩
            intro tok htok
            rcases List.mem_cons.mp htok with rfl | hm
            · rw [ulidDatetime_ulidWith]
              exact Nat.mod_eq_of_lt hct
            · exact iht tok hm
        · split at h
          · cases h
          · rename_i hrec
            cases h
            obtain ⟨iht, ihs⟩ := ih _ _ _ _ _ _ hrec
              (fun v hv => hb v (List.mem_cons_of_mem _ hv))
            constructor
            · intro tok htok
              rcases List.mem_cons.mp htok with rfl | hm
              · rw [ulidDatetime_ulidWith]
                exact Nat.mod_eq_of_lt hct
              · exact iht tok hm
            · intro s hs
              rcases List.mem_cons.mp hs with rfl | hm
              · rw [ulidDatetime_ulidWith]
                exact Nat.mod_eq_of_lt hct
              · exact ihs s hm

theorem pass2_c4 (env : Env) (idx : List (Str × Nat))
    (dev : List ((Nat × Str) × Nat)) (k : Nat)
    (l : List SynapseRefreshableTokenPair)
    (toks : List MasNewCompatAccessToken)
    (refreshes : List MasNewCompatRefreshToken)
    (devF : List ((Nat × Str) × Nat)) (kF : Nat)
    (h : migrate_refreshable_token_pairs env idx dev k l =
      .ok (toks, refreshes, devF, kF))
    (hb : ∀ t ∈ l, ∀ ts ∈ t.last_validated, ts < 2 ^ 48)
    (hc : env.clock_now < 2 ^ 48) :
    (∀ tok ∈ toks, ulidDatetime tok.token_id = tok.created_at) ∧
    (∀ r ∈ refreshes, ulidDatetime r.refresh_token_id = r.created_at) := by
  induction l generalizing dev k toks refreshes devF kF with
  | nil =>
    simp only [migrate_refreshable_token_pairs] at h
    cases h
    exact ⟨fun _ h => absurd h (List.not_mem_nil _),
      fun _ h => absurd h (List.not_mem_nil _)⟩
  | cons t rest ih =>
    have hct : t.last_validated.getD env.clock_now < 2 ^ 48 := by
      cases hlv : t.last_validated with
      | none => simpa using hc
      | some ts =>
        simpa using hb t (List.mem_cons_self _ _) ts (by simp [hlv])
    simp only [migrate_refreshable_token_pairs] at h
    split at h
    · cases h
    · split at h
      · cases h
      · split at h
        · cases h
        · rename_i hrec
          cases h
          obtain ⟨iht, ihr⟩ := ih _ _ _ _ _ _ hrec
            (fun v hv => hb v (List.mem_cons_of_mem _ hv))
          constructor
          · intro tok htok
            rcases List.mem_cons.mp htok with rfl | hm
            · rw [ulidDatetime_ulidWith]
              exact Nat.mod_eq_of_lt hct
            · exact iht tok hm
          · intro r hr
            rcases List.mem_cons.mp hr with rfl | hm
            · rw [ulidDatetime_ulidWith]
              exact Nat.mod_eq_of_lt hct
            · exact ihr r hm

theorem devices_c4 (env : Env) (idx : List (Str × Nat)) (admins : List Nat)
    (devices : List ((Nat × Str) × Nat)) (k : Nat) (l : List SynapseDevice)
    (sessions : List MasNewCompatSession)
    (devicesF : List ((Nat × Str) × Nat)) (kF : Nat)
    (h : migrate_devices env idx admins devices k l = .ok (sessions, devicesF, kF)) :
    ∀ s ∈ sessions, ulidDatetime s.session_id = s.created_at := by
  induction l generalizing devices k sessions devicesF kF with
  | nil =>
    simp only [migrate_devices] at h
    cases h
    exact fun _ h => absurd h (List.not_mem_nil _)
  | cons d rest ih =>
    simp only [migrate_devices] at h
    split at h
    · cases h
    · split at h
      · cases h
      · split at h
        · cases h
        · rename_i hrec
          cases h
          intro s hs
          rcases List.mem_cons.mp hs with rfl | hm
          · rfl
          · exact ih _ _ _ _ _ hrec s hm

/-! ## Claim theorems

Each claim of the specification is settled by one theorem below; theorems
with hypotheses come with a closed witness instantiating them on the
scenario constants. -/

/-- C7: `transform_user` sets `locked_at` to the user's own creation
timestamp exactly when the source `deactivated` flag is set, and `none`
otherwise; `created_at` is the source creation timestamp. -/
theorem c7_deactivated_locked_at (env : Env) (u : SynapseUser) (k : Nat)
    (mu : MasNewUser) (pw : Option MasNewUserPassword) (k' : Nat)
    (h : transform_user env u k = .ok (mu, pw, k')) :
    mu.created_at = u.creation_ts ∧
    mu.locked_at = (if u.deactivated then some u.creation_ts else none) := by
  simp only [transform_user] at h
  split at h
  · cases h
  · split at h
    · cases h
      exact ⟨rfl, rfl⟩
    · cases h
      exact ⟨rfl, rfl⟩

theorem c7_witness :
    truW.1.created_at = aliceDeacW.creation_ts ∧
    truW.1.locked_at =
      (if aliceDeacW.deactivated then some aliceDeacW.creation_ts else none) :=
  c7_deactivated_locked_at envW aliceDeacW 0 truW.1 truW.2.1 truW.2.2 rfl

/-- C6: threepid routing. The email rows correspond one-to-one, in order,
with exactly the source threepids whose medium is the literal string
`email` (each with its ID minted from `added_at`); every other medium
produces an unsupported-threepid row carrying the medium and address
verbatim, and produces no email row. -/
theorem c6_threepid_routing (env : Env) (idx : List (Str × Nat)) (k : Nat)
    (l : List SynapseThreepid) (emails : List MasNewEmailThreepid)
    (unsupported : List MasNewUnsupportedThreepid) (kF : Nat)
    (h : migrate_threepids env idx k l = .ok (emails, unsupported, kF)) :
    List.Forall₂ (fun (t : SynapseThreepid) (e : MasNewEmailThreepid) =>
        e.email = t.address ∧ e.created_at = t.added_at ∧
        (∃ j, e.user_email_id = ulidWith env t.added_at j) ∧
        ∃ loc, extractLocalpart env.server_name t.user_id = some loc ∧
          List.lookup loc idx = some e.user_id)
      (l.filter (fun t => t.medium == "email".data)) emails ∧
    List.Forall₂ (fun (t : SynapseThreepid) (u : MasNewUnsupportedThreepid) =>
        u.medium = t.medium ∧ u.address = t.address ∧ u.created_at = t.added_at ∧
        ∃ loc, extractLocalpart env.server_name t.user_id = some loc ∧
          List.lookup loc idx = some u.user_id)
      (l.filter (fun t => !(t.medium == "email".data))) unsupported := by
  induction l generalizing k emails unsupported kF with
  | nil =>
    simp only [migrate_threepids] at h
    cases h
    exact ⟨List.Forall₂.nil, List.Forall₂.nil⟩
  | cons t rest ih =>
    simp only [migrate_threepids] at h
    split at h
    · cases h
    · rename_i username hl
      split at h
      · cases h
      · rename_i user_id hu
        split at h
        · rename_i hmed
          split at h
          · cases h
          · rename_i emails' unsupported' kF' hrec
            cases h
            have := ih _ _ _ _ hrec
            refine ⟨?_, ?_⟩
            · rw [List.filter_cons_of_pos (by simpa using hmed)]
              exact List.Forall₂.cons
                ⟨rfl, rfl, ⟨k, rfl⟩, username, hl, hu⟩ this.1
            · rw [List.filter_cons_of_neg (by simpa using hmed)]
              exact this.2
        · rename_i hmed
          split at h
          · cases h
          · rename_i emails' unsupported' kF' hrec
            cases h
            have := ih _ _ _ _ hrec
            refine ⟨?_, ?_⟩
            · rw [List.filter_cons_of_neg (by simpa using hmed)]
              exact this.1
            · rw [List.filter_cons_of_pos (by simpa using hmed)]
              exact List.Forall₂.cons ⟨rfl, rfl, rfl, username, hl, hu⟩ this.2

theorem c6_witness :
    List.Forall₂ (fun (t : SynapseThreepid) (e : MasNewEmailThreepid) =>
        e.email = t.address ∧ e.created_at = t.added_at ∧
        (∃ j, e.user_email_id = ulidWith envW t.added_at j) ∧
        ∃ loc, extractLocalpart envW.server_name t.user_id = some loc ∧
          List.lookup loc idxW = some e.user_id)
      (threepidsW.filter (fun t => t.medium == "email".data)) threepidsResW.1 ∧
    List.Forall₂ (fun (t : SynapseThreepid) (u : MasNewUnsupportedThreepid) =>
        u.medium = t.medium ∧ u.address = t.address ∧ u.created_at = t.added_at ∧
        ∃ loc, extractLocalpart envW.server_name t.user_id = some loc ∧
          List.lookup loc idxW = some u.user_id)
      (threepidsW.filter (fun t => !(t.medium == "email".data))) threepidsResW.2.1 :=
  c6_threepid_routing envW idxW 0 threepidsW threepidsResW.1 threepidsResW.2.1
    threepidsResW.2.2 rfl

/-- C5: in both token passes, each emitted compat access token's
`created_at` is the source row's `last_validated` when present and the
injected clock's reading otherwise, carries the source token string and
expiry verbatim, and its ID is minted from that `created_at`. -/
theorem c5_token_created_at (env : Env) (idx1 : List (Str × Nat))
    (dev1 : List ((Nat × Str) × Nat)) (k1 : Nat) (l1 : List SynapseAccessToken)
    (toks1 : List MasNewCompatAccessToken) (sess1 : List MasNewCompatSession)
    (dev1F : List ((Nat × Str) × Nat)) (k1F : Nat)
    (idx2 : List (Str × Nat)) (dev2 : List ((Nat × Str) × Nat)) (k2 : Nat)
    (l2 : List SynapseRefreshableTokenPair)
    (toks2 : List MasNewCompatAccessToken) (refr2 : List MasNewCompatRefreshToken)
    (dev2F : List ((Nat × Str) × Nat)) (k2F : Nat)
    (h1 : migrate_unrefreshable_access_tokens env idx1 dev1 k1 l1 =
      .ok (toks1, sess1, dev1F, k1F))
    (h2 : migrate_refreshable_token_pairs env idx2 dev2 k2 l2 =
      .ok (toks2, refr2, dev2F, k2F)) :
    List.Forall₂ (fun (t : SynapseAccessToken) (tok : MasNewCompatAccessToken) =>
      tok.created_at = t.last_validated.getD env.clock_now ∧
      tok.access_token = t.token ∧ tok.expires_at = t.valid_until_ms ∧
      ∃ j, tok.token_id = ulidWith env tok.created_at j) l1 toks1 ∧
    List.Forall₂ (fun (t : SynapseRefreshableTokenPair) (tok : MasNewCompatAccessToken) =>
      tok.created_at = t.last_validated.getD env.clock_now ∧
      tok.access_token = t.access_token ∧ tok.expires_at = t.valid_until_ms ∧
      ∃ j, tok.token_id = ulidWith env tok.created_at j) l2 toks2 := by
  constructor
  · clear h2
    induction l1 generalizing dev1 k1 toks1 sess1 dev1F k1F with
    | nil =>
      simp only [migrate_unrefreshable_access_tokens] at h1
      cases h1
      exact List.Forall₂.nil
    | cons t rest ih =>
      simp only [migrate_unrefreshable_access_tokens] at h1
      split at h1
      · cases h1
      · rename_i username hl
        split at h1
        · cases h1
        · rename_i user_id hu
          split at h1
          · rename_i device_id hdev
            split at h1
            · cases h1
            · rename_i toks' sess' devF' kF' hrec
              cases h1
              exact List.Forall₂.cons ⟨rfl, rfl, rfl, _, rfl⟩ (ih _ _ _ _ _ _ hrec)
          · rename_i hdev
            split at h1
            · cases h1
            · rename_i toks' sess' devF' kF' hrec
              cases h1
              exact List.Forall₂.cons ⟨rfl, rfl, rfl, _, rfl⟩ (ih _ _ _ _ _ _ hrec)
  · clear h1
    induction l2 generalizing dev2 k2 toks2 refr2 dev2F k2F with
    | nil =>
      simp only [migrate_refreshable_token_pairs] at h2
      cases h2
      exact List.Forall₂.nil
    | cons t rest ih =>
      simp only [migrate_refreshable_token_pairs] at h2
      split at h2
      · cases h2
      · rename_i username hl
        split at h2
        · cases h2
        · rename_i user_id hu
          split at h2
          · cases h2
          · rename_i toks' refr' devF' kF' hrec
            cases h2
            exact List.Forall₂.cons ⟨rfl, rfl, rfl, _, rfl⟩ (ih _ _ _ _ _ _ hrec)

theorem c5_witness :
    List.Forall₂ (fun (t : SynapseAccessToken) (tok : MasNewCompatAccessToken) =>
      tok.created_at = t.last_validated.getD envW.clock_now ∧
      tok.access_token = t.token ∧ tok.expires_at = t.valid_until_ms ∧
      ∃ j, tok.token_id = ulidWith envW tok.created_at j)
      [tokenW, tokenNoDevW] p1ResW.1 ∧
    List.Forall₂ (fun (t : SynapseRefreshableTokenPair) (tok : MasNewCompatAccessToken) =>
      tok.created_at = t.last_validated.getD envW.clock_now ∧
      tok.access_token = t.access_token ∧ tok.expires_at = t.valid_until_ms ∧
      ∃ j, tok.token_id = ulidWith envW tok.created_at j) [pairW] p2ResW.1 :=
  c5_token_created_at envW idxW [] 0 [tokenW, tokenNoDevW] p1ResW.1 p1ResW.2.1
    p1ResW.2.2.1 p1ResW.2.2.2 idxW [] 0 [pairW] p2ResW.1 p2ResW.2.1
    p2ResW.2.2.1 p2ResW.2.2.2 rfl rfl

/-- C8: when an external-ID row's user resolves through the localpart index
but its `auth_provider` has no entry in the supplied mapping, the stage —
after passing any earlier unproblematic rows — aborts with
`MissingAuthProviderMapping` carrying the exact provider string and the
offending user; being an error, the aborted run emits no link row for the
offending row. -/
theorem c8_missing_auth_provider (env : Env) (idx mapping : List (Str × Nat))
    (p : List SynapseExternalId) (r : SynapseExternalId)
    (rest : List SynapseExternalId) (k : Nat) (loc : Str) (uid : Nat)
    (hp : ∀ e ∈ p, extRowOk env idx mapping e = true)
    (hloc : extractLocalpart env.server_name r.user_id = some loc)
    (huid : List.lookup loc idx = some uid)
    (hprov : List.lookup r.auth_provider mapping = none) :
    migrate_external_ids env idx mapping k (p ++ r :: rest) =
      .error (.missingAuthProviderMapping r.auth_provider r.user_id) := by
  induction p generalizing k with
  | nil =>
    simp only [List.nil_append, migrate_external_ids, hloc, huid, hprov]
  | cons e p' ih =>
    have he := hp e (by simp)
    unfold extRowOk at he
    simp only [List.cons_append, migrate_external_ids]
    split
    · rename_i hl; rw [hl] at he; cases he
    · rename_i username hl
      rw [hl] at he
      simp only [Bool.and_eq_true, Option.isSome_iff_exists] at he
      obtain ⟨⟨u1, hu1⟩, ⟨u2, hu2⟩⟩ := he
      simp only [hu1, hu2, List.append_eq,
        ih (k + 1) (fun e' he' => hp e' (List.mem_cons_of_mem e he'))]

theorem c8_witness :
    migrate_external_ids envW idxW mapW 0 ([extGoodW] ++ extBadW :: []) =
      .error (.missingAuthProviderMapping extBadW.auth_provider extBadW.user_id) :=
  c8_missing_auth_provider envW idxW mapW [extGoodW] extBadW [] 0 ("alice".data)
    (ulidWith envW 5 0) (by decide) (by decide) (by decide) (by decide)

/-- C9: a device row whose last-seen IP string fails to parse never aborts
the device stage — any error of the stage originates in the remaining rows
— and the session row emitted for it carries a null IP with every other
field as usual (device ID, display name as human name, last-seen timestamp,
user agent, and the admin set's verdict). -/
theorem c9_unparseable_ip (env : Env) (idx : List (Str × Nat)) (admins : List Nat)
    (devices : List ((Nat × Str) × Nat)) (k : Nat) (d : SynapseDevice)
    (rest : List SynapseDevice) (loc ipstr : Str) (uid : Nat)
    (hloc : extractLocalpart env.server_name d.user_id = some loc)
    (huid : List.lookup loc idx = some uid)
    (hipstr : d.ip = some ipstr)
    (hparse : env.parse_ip ipstr = none) :
    (∀ e, migrate_devices env idx admins devices k (d :: rest) = .error e →
      ∃ devices2 k2, migrate_devices env idx admins devices2 k2 rest = .error e) ∧
    (∀ sessions devicesF kF,
      migrate_devices env idx admins devices k (d :: rest) =
        .ok (sessions, devicesF, kF) →
      ∃ s tl, sessions = s :: tl ∧
        s.last_active_ip = none ∧
        s.user_id = uid ∧
        s.device_id = some d.device_id ∧
        s.human_name = d.display_name ∧
        s.last_active_at = d.last_seen ∧
        s.user_agent = d.user_agent ∧
        s.is_synapse_admin = admins.contains uid) := by
  have hbind : d.ip.bind env.parse_ip = none := by rw [hipstr]; simpa using hparse
  constructor
  · intro e he
    simp only [migrate_devices, hloc, huid] at he
    split at he
    · rename_i e' hrec
      exact ⟨_, _, by cases he; exact hrec⟩
    · cases he
  · intro sessions devicesF kF hok
    simp only [migrate_devices, hloc, huid] at hok
    split at hok
    · cases hok
    · rename_i sess' devs' k' hrec
      cases hok
      exact ⟨_, _, rfl, by simpa using hbind, rfl, rfl, rfl, rfl, rfl, rfl⟩

theorem c9_witness :
    (∀ e, migrate_devices envW idxW adminsW [] 0 (deviceBadIpW :: []) = .error e →
      ∃ devices2 k2, migrate_devices envW idxW adminsW devices2 k2 [] = .error e) ∧
    (∀ sessions devicesF kF,
      migrate_devices envW idxW adminsW [] 0 (deviceBadIpW :: []) =
        .ok (sessions, devicesF, kF) →
      ∃ s tl, sessions = s :: tl ∧
        s.last_active_ip = none ∧
        s.user_id = ulidWith envW 5 0 ∧
        s.device_id = some deviceBadIpW.device_id ∧
        s.human_name = deviceBadIpW.display_name ∧
        s.last_active_at = deviceBadIpW.last_seen ∧
        s.user_agent = deviceBadIpW.user_agent ∧
        s.is_synapse_admin = adminsW.contains (ulidWith envW 5 0)) :=
  c9_unparseable_ip envW idxW adminsW [] 0 deviceBadIpW [] ("alice".data)
    ("not-an-ip".data) (ulidWith envW 5 0) (by decide) (by decide) rfl rfl

/-- C10: in the external-ID stage the localpart-index lookup precedes the
provider-mapping lookup — a row whose user is unknown fails with
`MissingUserFromDependentTable{table: user_external_ids}` even when its
provider is also unmapped — and whenever the stage returns
`MissingAuthProviderMapping`, the offending row's user did resolve through
the localpart index. -/
theorem c10_lookup_order (env : Env) (idx mapping : List (Str × Nat))
    (p : List SynapseExternalId) (r : SynapseExternalId)
    (rest : List SynapseExternalId) (k : Nat) (loc : Str)
    (hp : ∀ e ∈ p, extRowOk env idx mapping e = true)
    (hloc : extractLocalpart env.server_name r.user_id = some loc)
    (huser : List.lookup loc idx = none)
    (_hprov : List.lookup r.auth_provider mapping = none) :
    migrate_external_ids env idx mapping k (p ++ r :: rest) =
      .error (.missingUserFromDependentTable ("user_external_ids".data) r.user_id) ∧
    ∀ (l : List SynapseExternalId) (k' : Nat) (s u : Str),
      migrate_external_ids env idx mapping k' l =
        .error (.missingAuthProviderMapping s u) →
      ∃ e ∈ l, e.auth_provider = s ∧ e.user_id = u ∧
        ∃ loc2, extractLocalpart env.server_name e.user_id = some loc2 ∧
          (List.lookup loc2 idx).isSome = true := by
  constructor
  · induction p generalizing k with
    | nil =>
      simp only [List.nil_append, migrate_external_ids, hloc, huser]
    | cons e p' ih =>
      have he := hp e (by simp)
      unfold extRowOk at he
      simp only [List.cons_append, migrate_external_ids]
      split
      · rename_i hl; rw [hl] at he; cases he
      · rename_i username hl
        rw [hl] at he
        simp only [Bool.and_eq_true, Option.isSome_iff_exists] at he
        obtain ⟨⟨u1, hu1⟩, ⟨u2, hu2⟩⟩ := he
        simp only [hu1, hu2, List.append_eq,
          ih (k + 1) (fun e' he' => hp e' (List.mem_cons_of_mem e he'))]
  · intro l
    induction l with
    | nil =>
      intro k' s u h
      simp only [migrate_external_ids] at h
      cases h
    | cons e l' ih =>
      intro k' s u h
      simp only [migrate_external_ids] at h
      split at h
      · cases h
      · rename_i username hl
        split at h
        · cases h
        · rename_i user_id hu
          split at h
          · cases h
            exact ⟨e, by simp, rfl, rfl, username, hl, by rw [hu]; rfl⟩
          · rename_i upstream hup
            split at h
            · rename_i e' hrec
              cases h
              obtain ⟨e2, he2, hrest⟩ := ih _ _ _ hrec
              exact ⟨e2, List.mem_cons_of_mem _ he2, hrest⟩
            · cases h

theorem c10_witness :
    migrate_external_ids envW idxW mapW 0 ([extGoodW] ++ extUnknownUserW :: []) =
      .error (.missingUserFromDependentTable ("user_external_ids".data)
        extUnknownUserW.user_id) ∧
    ∀ (l : List SynapseExternalId) (k' : Nat) (s u : Str),
      migrate_external_ids envW idxW mapW k' l =
        .error (.missingAuthProviderMapping s u) →
      ∃ e ∈ l, e.auth_provider = s ∧ e.user_id = u ∧
        ∃ loc2, extractLocalpart envW.server_name e.user_id = some loc2 ∧
          (List.lookup loc2 idxW).isSome = true :=
  c10_lookup_order envW idxW mapW [extGoodW] extUnknownUserW [] 0 ("bob".data)
    (by decide) (by decide) (by decide) (by decide)

/-- C1 counterexample: on `db1cW` the pair `(alice, D1)` appears in a source
token, yet the completed migration emits zero compat sessions for device
`D1` — the claim's "exactly one" fails for pairs present only in tokens. -/
theorem c1_counterexample :
    db1cW.unrefreshable_access_tokens.any
      (fun t => t.device_id == some ("D1".data)) = true ∧
    (migrate envW [] db1cW).map
      (fun o => o.compat_sessions.countP
        (fun s => decide (s.device_id = some ("D1".data)))) = .ok 0 ∧
    ¬ ((migrate envW [] db1cW).map
      (fun o => o.compat_sessions.countP
        (fun s => decide (s.device_id = some ("D1".data)))) = .ok 1) :=
  ⟨rfl, rfl, fun h => absurd (Except.ok.inj h) (by decide)⟩

/-- C1 (amended): for every `(user uuid, device_id)` pair that a row of the
source *device table* resolves to — assuming the device table's resolved
pairs are distinct, as the source primary key guarantees — the completed
migration emits exactly one compat session carrying that pair; pairs
appearing only in tokens are indexed but never emitted, and deviceless
sessions never carry a device ID. -/
theorem c1_session_uniqueness (env : Env) (mapping : List (Str × Nat))
    (db : SynapseDb) (out : MasDb) (users : List MasNewUser)
    (passwords : List MasNewUserPassword) (idx : List (Str × Nat))
    (admins : List Nat) (k1 : Nat)
    (hu : migrate_users env [] [] 0 db.users = .ok (users, passwords, idx, admins, k1))
    (hok : migrate env mapping db = .ok out)
    (hdist : db.devices.Pairwise (fun d1 d2 =>
      deviceResolvedPair env idx d1 ≠ deviceResolvedPair env idx d2))
    (d : SynapseDevice) (hd : d ∈ db.devices) (uid : Nat) (did : Str)
    (hres : deviceResolvedPair env idx d = some (uid, did)) :
    out.compat_sessions.countP
      (fun s => decide (s.user_id = uid ∧ s.device_id = some did)) = 1 := by
  simp only [migrate, hu] at hok
  split at hok
  · cases hok
  · rename_i emails unsupported k2 h3p
    split at hok
    · cases hok
    · rename_i links k3 hext
      split at hok
      · cases hok
      · rename_i tokens1 deviceless devmap1 k4 hp1
        split at hok
        · cases hok
        · rename_i tokens2 refreshes devmap2 k5 hp2
          split at hok
          · cases hok
          · rename_i device_sessions devmapF k6 hdevst
            cases hok
            simp only [List.countP_append]
            have hdl : (deviceless.countP
                (fun s => decide (s.user_id = uid ∧ s.device_id = some did))) = 0 :=
              List.countP_eq_zero.mpr (fun s hs hp => by
                have := pass1_sessions_deviceless _ _ _ _ _ _ _ _ _ hp1 s hs
                rw [of_decide_eq_true hp |>.2] at this
                cases this)
            have hf2 := devices_sessions_forall2 _ _ _ _ _ _ _ _ _ hdevst
            have hcount : device_sessions.countP
                (fun s => decide (s.user_id = uid ∧ s.device_id = some did)) =
                db.devices.countP
                  (fun d' => decide (deviceResolvedPair env idx d' = some (uid, did))) := by
              refine countP_eq_of_forall2 hf2 _ _ ?_
              intro a b hr
              refine decide_eq_decide.mpr ?_
              rw [hr.1, hr.2.1]
              simp
            rw [hdl, hcount, Nat.zero_add]
            refine countP_eq_one_of_pairwise _ _
              (hdist.imp ?_) d hd (by simp [hres])
            intro a b hne hab
            exact hne ((of_decide_eq_true hab.1).trans
              (of_decide_eq_true hab.2).symm)

theorem c1_witness :
    outW.compat_sessions.countP
      (fun s => decide (s.user_id = ulidWith envW 5 0 ∧
        s.device_id = some ("D1".data))) = 1 :=
  c1_session_uniqueness envW mapW dbW outW usersResW.1 usersResW.2.1
    usersResW.2.2.1 usersResW.2.2.2.1 usersResW.2.2.2.2 rfl rfl
    (by decide) deviceW (by decide) (ulidWith envW 5 0) ("D1".data) (by decide)

/-- C2 counterexample: alice is a Synapse admin, yet the deviceless compat
session the token pass emits for her carries `is_synapse_admin = false` —
the claim fails for deviceless sessions, which the token pass hard-codes to
non-admin. -/
theorem c2_counterexample :
    aliceW.admin = true ∧
    (migrate envW [] db2cW).map (fun o => o.users.map (fun u => u.user_id)) =
      .ok [ulidWith envW 5 0] ∧
    ¬ (∀ o, migrate envW [] db2cW = .ok o →
        ∀ s ∈ o.compat_sessions, s.user_id = ulidWith envW 5 0 →
          s.is_synapse_admin = true) :=
  ⟨rfl, rfl, fun h =>
    absurd (h out2cW rfl sess2cW (by decide) (by decide)) (by decide)⟩

/-- C2 (amended): a source user with `admin = true` gets `is_synapse_admin
= true` on every compat session that carries a device ID (exactly the
sessions the device stage emits); deviceless sessions are always emitted
with the flag false, as witnessed by the counterexample. -/
theorem c2_admin_propagation (env : Env) (mapping : List (Str × Nat))
    (db : SynapseDb) (out : MasDb) (i : Nat)
    (hok : migrate env mapping db = .ok out)
    (h1 : i < db.users.length) (h2 : i < out.users.length)
    (hadm : (db.users.get ⟨i, h1⟩).admin = true)
    (s : MasNewCompatSession) (hs : s ∈ out.compat_sessions)
    (hdev : s.device_id ≠ none)
    (hid : s.user_id = (out.users.get ⟨i, h2⟩).user_id) :
    s.is_synapse_admin = true := by
  simp only [migrate] at hok
  split at hok
  · cases hok
  · rename_i users passwords idx admins k1 hu
    split at hok
    · cases hok
    · rename_i emails unsupported k2 h3p
      split at hok
      · cases hok
      · rename_i links k3 hext
        split at hok
        · cases hok
        · rename_i tokens1 deviceless devmap1 k4 hp1
          split at hok
          · cases hok
          · rename_i tokens2 refreshes devmap2 k5 hp2
            split at hok
            · cases hok
            · rename_i device_sessions devmapF k6 hdevst
              cases hok
              rcases List.mem_append.mp hs with hsl | hsr
              · exact absurd
                  (pass1_sessions_deviceless _ _ _ _ _ _ _ _ _ hp1 s hsl) hdev
              · obtain ⟨d, hdmem, hR⟩ := forall2_mem_right
                  (devices_sessions_forall2 _ _ _ _ _ _ _ _ _ hdevst) s hsr
                obtain ⟨hsub, hf⟩ := users_admin_forall2 _ _ _ _ _ _ _ _ _ _ hu
                have hmem : s.user_id ∈ admins := by
                  rw [hid]
                  exact forall2_get hf i h1 h2 hadm
                rw [hR.2.2]
                exact List.elem_iff.mpr hmem

theorem c2_witness : sessAdminW.is_synapse_admin = true :=
  c2_admin_propagation envW mapW dbW outW 0 rfl (by decide) (by decide)
    (by decide) sessAdminW (by decide) (by decide) (by decide)

/-- C3 evidence: with the injected clock frozen at 1000 ms and the system
wall clock at 2000 ms, the session minted for a token-less device is dated
2000 ms — `migrate_devices` receives no clock and `Ulid::with_source` reads
the system wall clock, not the injected one. -/
theorem c3_device_fallback_system_clock :
    envW.clock_now = 1000 ∧ envW.system_now = 2000 ∧
    (migrate envW [] db3cW).map
      (fun o => o.compat_sessions.map (fun s => s.created_at)) = .ok [2000] ∧
    (2000 : Nat) ≠ 1000 :=
  ⟨rfl, rfl, rfl, by decide⟩

/-- C4: for every destination row the migration emits that carries both a
minted 128-bit ID and a created-at — users, passwords, email threepids,
upstream OAuth links, compat sessions, compat access tokens and compat
refresh tokens — the 48-bit millisecond timestamp in the ID's high bits
equals the row's created-at, provided every source timestamp and the
clock reading fit in 48 bits (they do until the year 10889). -/
theorem c4_id_timestamp (env : Env) (mapping : List (Str × Nat)) (db : SynapseDb)
    (out : MasDb)
    (hok : migrate env mapping db = .ok out)
    (hdb : db.tsBounded) (hclock : env.clock_now < 2 ^ 48) :
    (∀ u ∈ out.users, ulidDatetime u.user_id = u.created_at) ∧
    (∀ p ∈ out.passwords, ulidDatetime p.user_password_id = p.created_at) ∧
    (∀ e ∈ out.email_threepids, ulidDatetime e.user_email_id = e.created_at) ∧
    (∀ li ∈ out.upstream_oauth_links, ulidDatetime li.link_id = li.created_at) ∧
    (∀ s ∈ out.compat_sessions, ulidDatetime s.session_id = s.created_at) ∧
    (∀ t ∈ out.compat_access_tokens, ulidDatetime t.token_id = t.created_at) ∧
    (∀ r ∈ out.compat_refresh_tokens, ulidDatetime r.refresh_token_id = r.created_at) := by
  obtain ⟨hbu, hbt, hba, hbr⟩ := hdb
  simp only [migrate] at hok
  split at hok
  · cases hok
  · rename_i users passwords idx admins k1 hu
    split at hok
    · cases hok
    · rename_i emails unsupported k2 h3p
      split at hok
      · cases hok
      · rename_i links k3 hext
        split at hok
        · cases hok
        · rename_i tokens1 deviceless devmap1 k4 hp1
          split at hok
          · cases hok
          · rename_i tokens2 refreshes devmap2 k5 hp2
            split at hok
            · cases hok
            · rename_i device_sessions devmapF k6 hdevst
              cases hok
              obtain ⟨hus, hpass, hidxv⟩ :=
                users_c4 _ _ _ _ _ _ _ _ _ _ hu hbu
                  (fun _ h => absurd h (List.not_mem_nil _))
              obtain ⟨ht1, hs1⟩ := pass1_c4 _ _ _ _ _ _ _ _ _ hp1 hba hclock
              obtain ⟨ht2, hr2⟩ := pass2_c4 _ _ _ _ _ _ _ _ _ hp2 hbr hclock
              refine ⟨hus, hpass, threepids_c4 _ _ _ _ _ _ _ h3p hbt,
                external_c4 _ _ _ _ _ _ _ hext hidxv, ?_, ?_, hr2⟩
              · intro s hs
                rcases List.mem_append.mp hs with hm | hm
                · exact hs1 s hm
                · exact devices_c4 _ _ _ _ _ _ _ _ _ hdevst s hm
              · intro t ht
                rcases List.mem_append.mp ht with hm | hm
                · exact ht1 t hm
                · exact ht2 t hm

theorem c4_witness :
    (∀ u ∈ outW.users, ulidDatetime u.user_id = u.created_at) ∧
    (∀ p ∈ outW.passwords, ulidDatetime p.user_password_id = p.created_at) ∧
    (∀ e ∈ outW.email_threepids, ulidDatetime e.user_email_id = e.created_at) ∧
    (∀ li ∈ outW.upstream_oauth_links, ulidDatetime li.link_id = li.created_at) ∧
    (∀ s ∈ outW.compat_sessions, ulidDatetime s.session_id = s.created_at) ∧
    (∀ t ∈ outW.compat_access_tokens, ulidDatetime t.token_id = t.created_at) ∧
    (∀ r ∈ outW.compat_refresh_tokens, ulidDatetime r.refresh_token_id = r.created_at) :=
  c4_id_timestamp envW mapW dbW outW rfl
    (by unfold SynapseDb.tsBounded; exact ⟨by decide, by decide, by decide, by decide⟩)
    (by decide)

